import Mathlib

/-!
# Verification development for the Dynatrace synthetic-monitor Keptn service

Shallow embedding of `eventhandlers.go`: the data-transfer structs, the request
body built from the monitor ID, and `SyntheticCloudEventHandler` as a pure
function from an explicit environment (`World`) to the list of external calls
the handler makes together with the way it ends (a returned error value or a
run-time panic).

Go strings are modelled by `String`, Go `error` values by their message, Go
slices by lists (the handler never leaves a slice it encodes `nil`), and the
`int16` counters by `Int` together with the range predicate `isInt16`.
Log output (`log.Printf`, `log.Println`) is not part of the trace; evaluating
the arguments of a log call is modelled where it can fail (`err.Error()` on a
nil `err`).
-/

namespace DtSynthetic

/-! ## Data model -/

/-- A Go `error` value, identified by its message. `Option GoError` is a Go
`error` variable, `none` being `nil`. -/
abbrev GoError := String

/-- The string type `keptnv2.StatusType`. -/
abbrev StatusType := String

/-- The string type `keptnv2.ResultType`. -/
abbrev ResultType := String

/-- Modelled from the spec: the constant `keptnv2.StatusSucceeded` of the keptn
go-utils library (status=succeeded). -/
def StatusSucceeded : StatusType := "succeeded"

/-- Modelled from the spec: the constant `keptnv2.StatusErrored` of the keptn
go-utils library (status=errored). -/
def StatusErrored : StatusType := "errored"

/-- Modelled from the spec: the constant `keptnv2.ResultPass` of the keptn
go-utils library (result pass). -/
def ResultPass : ResultType := "pass"

/-- Modelled from the spec: the constant `keptnv2.ResultFailed` of the keptn
go-utils library (result pass/fail); the failed result is the string `fail`. -/
def ResultFailed : ResultType := "fail"

/-- Modelled from the spec: the struct `keptnv2.EventData` of the keptn go-utils
library, the payload `{status, result, message?}` with the standard task
metadata (project, stage, service, labels). Every field carries a
`json:"...,omitempty"` tag. -/
structure EventData where
  Project : String := ""
  Stage : String := ""
  Service : String := ""
  Labels : List (String × String) := []
  Status : StatusType := ""
  Result : ResultType := ""
  Message : String := ""
deriving DecidableEq, Repr

/-- Go struct `SyntheticEventData`. -/
structure SyntheticEventData where
  EventData : EventData := {}
  MonitorId : String
deriving DecidableEq, Repr

/-- Go struct `SyntheticExecution`. -/
structure SyntheticExecution where
  BatchId : String
  ExecutionIds : List String
deriving DecidableEq, Repr

/-- Go struct `SyntheticSuccessfulEventData`: `keptnv2.EventData` is embedded,
`SyntheticExecution` is a named field without a tag. -/
structure SyntheticSuccessfulEventData where
  EventData : EventData
  SyntheticExecution : SyntheticExecution
deriving DecidableEq, Repr

/-- Go struct `ExecutionNotTriggered`. -/
structure ExecutionNotTriggered where
  MonitorId : String
  Cause : String
deriving DecidableEq, Repr

/-- The anonymous element struct of `ExecutionTriggered.Executions`. -/
structure Execution where
  ExecutionId : String
  LocationId : String
deriving DecidableEq, Repr

/-- Go struct `ExecutionTriggered`. -/
structure ExecutionTriggered where
  MonitorId : String
  Executions : List Execution
deriving DecidableEq, Repr

/-- Go struct `ExecutionResponseBody`; the two counters are `int16` in Go. -/
structure ExecutionResponseBody where
  BatchId : String := ""
  NotTriggeredCount : Int := 0
  NotTriggered : List ExecutionNotTriggered := []
  TriggeredCount : Int := 0
  Triggered : List ExecutionTriggered := []
deriving DecidableEq, Repr

/-- The values a Go `int16` can hold. -/
def isInt16 (i : Int) : Prop := -32768 ≤ i ∧ i ≤ 32767

instance (i : Int) : Decidable (isInt16 i) := by
  unfold isInt16; exact inferInstance

/-! ## The environment of one handler run -/

/-- The fields of `url.URL` the handler touches (`Path`) or that `String()`
reassembles. -/
structure URL where
  Scheme : String := ""
  Host : String := ""
  Path : String := ""
  RawQuery : String := ""
  Fragment : String := ""
deriving DecidableEq, Repr

/-- An `http.Header`, as an association list from canonical keys to the single
value `Set` stores. -/
abbrev Header := List (String × String)

/-- The method `Header.Set` for a key that is already in canonical form: the
entry for the key is replaced by the one value. -/
def Header.Set (h : Header) (key value : String) : Header :=
  h.filter (fun kv => kv.1 ≠ key) ++ [(key, value)]

/-- The method `Header.Get` for a key that is already in canonical form; a key
that is not set yields the empty string. -/
def Header.Get (h : Header) (key : String) : String :=
  match h.find? (fun kv => kv.1 = key) with
  | some kv => kv.2
  | none => ""

/-- The parts of an `http.Request` the handler sets. -/
structure Request where
  Method : String
  URL : String
  Body : String
  Header : Header
deriving DecidableEq, Repr

/-- The parts of an `http.Response` the handler reads: the status code and the
bytes `io.ReadAll` obtains from the body. -/
structure Response where
  StatusCode : Int
  Body : String
deriving DecidableEq, Repr

/-- The pair `(resp, err)` that `httpClient.Do` returns. -/
structure DoResult where
  resp : Option Response
  err : Option GoError
deriving DecidableEq, Repr

/-- The payload handed to `SendTaskFinishedEvent`: a `*keptnv2.EventData` on
the failure paths, a `*SyntheticSuccessfulEventData` on the success path. -/
inductive FinishedPayload where
  | eventData (d : EventData)
  | syntheticSuccessful (d : SyntheticSuccessfulEventData)
deriving DecidableEq, Repr

/-- Everything outside the handler that one run consults: the process
environment, the keptn event sender, and the library functions whose results the
handler branches on. Each function is consulted at most once per run, so a
function of the argument describes every behaviour the run can observe. -/
structure World where
  /-- `os.Getenv`. -/
  Getenv : String → String
  /-- The error result of `myKeptn.SendTaskStartedEvent(data, ServiceName)`. -/
  SendTaskStartedEvent : SyntheticEventData → Option GoError
  /-- The error result of `myKeptn.SendTaskFinishedEvent(payload, ServiceName)`. -/
  SendTaskFinishedEvent : FinishedPayload → Option GoError
  /-- `url.Parse`. -/
  urlParse : String → Except GoError URL
  /-- `path.Join` on two elements. -/
  pathJoin : String → String → String
  /-- `(*url.URL).String`. -/
  urlString : URL → String
  /-- The error result of `http.NewRequest(method, url, body)`; on `none` the
  request is built from the three arguments. -/
  newRequestError : String → String → Option GoError
  /-- `httpClient.Do`. -/
  httpClientDo : Request → DoResult
  /-- `json.Unmarshal` into a fresh `ExecutionResponseBody`. -/
  jsonUnmarshal : String → Except GoError ExecutionResponseBody

/-- One external call made by the handler. -/
inductive Effect where
  | sentStarted (data : SyntheticEventData)
  | sentFinished (payload : FinishedPayload)
  | httpDo (req : Request)
deriving DecidableEq, Repr

/-- How a run of the handler ends: it returns an `error` value (`none` is
`nil`), or it panics. -/
inductive Outcome where
  | returned (err : Option GoError)
  | panicked
deriving DecidableEq, Repr

/-- A finished run: the external calls in the order they were made, and the
way the run ended. -/
structure Run where
  trace : List Effect
  outcome : Outcome
deriving DecidableEq, Repr

/-! ## The handler -/

/-- The request body of lines 75-80: the raw string literal with `%s` replaced
by the monitor ID, byte for byte (no escaping). -/
def jsonData (monitorId : String) : String :=
  "\x7b\n\t\t\"monitorsToTrigger\": [\x7b\n\t\t\t\"monitorId\": \"" ++ monitorId ++
    "\",\n      \"locations\": []\n\t\t\x7d]\n\t\x7d"

/-- The `EventData` literal sent on every failure path. -/
def erroredEventData (message : String) : EventData :=
  { Status := StatusErrored, Result := ResultFailed, Message := message }

/-- The nested `for ... range` loops of lines 181-185, appending one execution
ID at a time. -/
def collectExecutionIds (triggered : List ExecutionTriggered) : List String :=
  triggered.foldl
    (fun ids t => t.Executions.foldl (fun ids e => ids ++ [e.ExecutionId]) ids) []

/-- The tail of every failure path: send the errored finished event, return the
error result of that send (`_, err = myKeptn.SendTaskFinishedEvent(...)`,
`return err`). -/
def failWith (w : World) (before : List Effect) (message : String) : Run :=
  let payload := FinishedPayload.eventData (erroredEventData message)
  { trace := before ++ [Effect.sentFinished payload],
    outcome := Outcome.returned (w.SendTaskFinishedEvent payload) }

/-- The local `syntheticExecution` of lines 176-185: the batch ID of the
response and the execution IDs collected by the loops. -/
def syntheticExecution (body : ExecutionResponseBody) : SyntheticExecution :=
  { BatchId := body.BatchId,
    ExecutionIds := collectExecutionIds body.Triggered }

/-- The local `syntheticSuccessfulEventData` of lines 189-195. -/
def syntheticSuccessfulEventData (body : ExecutionResponseBody) :
    SyntheticSuccessfulEventData :=
  { EventData := { Status := StatusSucceeded, Result := ResultPass },
    SyntheticExecution := syntheticExecution body }

/-- Lines 146-199: the handler once a response with status 200 is in hand. -/
def handleResponse (w : World) (before : List Effect) (resp : Response) : Run :=
  match w.jsonUnmarshal resp.Body with
  | .error _ => failWith w before "Failed to trigger Synthetic monitor!"
  | .ok executionResponseBody =>
    if executionResponseBody.NotTriggeredCount > 0 then
      failWith w before "Failed to trigger Synthetic monitor!"
    else
      let payload := FinishedPayload.syntheticSuccessful
        (syntheticSuccessfulEventData executionResponseBody)
      { trace := before ++ [Effect.sentFinished payload],
        outcome := Outcome.returned (w.SendTaskFinishedEvent payload) }

/-- Lines 131-143: the outcome of `httpClient.Do`. The condition
`err != nil || resp.StatusCode != 200` short-circuits; inside the branch the log
message is built with `err.Error()` (line 133), which panics when `err` is nil,
before the finished event of lines 136-140 is sent. A nil `resp` next to a nil
`err` panics at `resp.StatusCode`. -/
def handleDoResult (w : World) (before : List Effect) (r : DoResult) : Run :=
  match r.err, r.resp with
  | some _, _ => failWith w before "Failed to trigger Synthetic monitor!"
  | none, none => { trace := before, outcome := Outcome.panicked }
  | none, some resp =>
    if resp.StatusCode ≠ 200 then
      { trace := before, outcome := Outcome.panicked }
    else
      handleResponse w before resp

/-- The function `SyntheticCloudEventHandler`. -/
def SyntheticCloudEventHandler (w : World) (data : SyntheticEventData) : Run :=
  match w.SendTaskStartedEvent data with
  | some err => { trace := [Effect.sentStarted data], outcome := Outcome.returned (some err) }
  | none =>
    let t0 := [Effect.sentStarted data]
    let body := jsonData data.MonitorId
    -- line 82 tests the `err` of line 68 again, which is nil here
    let err : Option GoError := none
    if err.isSome then
      failWith w t0 "Failed to marshal POST body!"
    else
      match w.urlParse (w.Getenv "DT_TENANT") with
      | .error _ => failWith w t0 "Failed to parse DT_TENANT!"
      | .ok u =>
        let u := { u with Path := w.pathJoin u.Path "/api/v2/synthetic/monitors/execute" }
        let executeUrl := w.urlString u
        let dtApiToken := w.Getenv "DT_API_TOKEN"
        match w.newRequestError "POST" executeUrl with
        | some _ => failWith w t0 "Failed to trigger Synthetic monitor!"
        | none =>
          let req : Request := { Method := "POST", URL := executeUrl, Body := body, Header := [] }
          let req := { req with Header := req.Header.Set "Authorization" ("Api-Token " ++ dtApiToken) }
          let req := { req with Header := req.Header.Set "Content-Type" "application/json" }
          handleDoResult w (t0 ++ [Effect.httpDo req]) (w.httpClientDo req)

/-- The events handed to the keptn event sender during a run, in order. -/
def Run.sentEvents (r : Run) : List Effect :=
  r.trace.filter (fun e =>
    match e with
    | Effect.sentStarted _ => true
    | Effect.sentFinished _ => true
    | Effect.httpDo _ => false)

/-- The requests handed to `httpClient.Do` during a run, in order. -/
def Run.httpCalls (r : Run) : List Request :=
  r.trace.filterMap (fun e =>
    match e with
    | Effect.httpDo req => some req
    | _ => none)

/-- The execution IDs of a response in response order: every execution of
every entry of `triggered`. -/
def triggeredExecutionIds (body : ExecutionResponseBody) : List String :=
  body.Triggered.flatMap (fun t => t.Executions.map (fun e => e.ExecutionId))

/-! ## Example environments -/

/-- An environment in which both sends are accepted, `DT_TENANT` parses, the
request is built, `httpClient.Do` yields `r` and the body unmarshals to
`parsed`. -/
def exampleWorld (r : DoResult) (parsed : Except GoError ExecutionResponseBody) : World :=
  { Getenv := fun k =>
      if k = "DT_TENANT" then "https://example.live.dynatrace.com"
      else if k = "DT_API_TOKEN" then "dt0c01.sample" else "",
    SendTaskStartedEvent := fun _ => none,
    SendTaskFinishedEvent := fun _ => none,
    urlParse := fun s => .ok { Host := s },
    pathJoin := fun a b => a ++ b,
    urlString := fun u => u.Host ++ u.Path,
    newRequestError := fun _ _ => none,
    httpClientDo := fun _ => r,
    jsonUnmarshal := fun _ => parsed }

/-- The trigger event of the spec example, monitor ID `abc123`. -/
def exampleEvent : SyntheticEventData := { MonitorId := "abc123" }

/-- The request the handler builds in `exampleWorld` for `exampleEvent`. -/
def exampleRequest : Request :=
  { Method := "POST",
    URL := "https://example.live.dynatrace.com/api/v2/synthetic/monitors/execute",
    Body := jsonData "abc123",
    Header := [("Authorization", "Api-Token dt0c01.sample"),
               ("Content-Type", "application/json")] }

/-- The parsed response of the spec example: batch `b1`, one monitor triggered
with one execution `e1`. -/
def exampleResponseBody : ExecutionResponseBody :=
  { BatchId := "b1", NotTriggeredCount := 0, TriggeredCount := 1,
    Triggered := [{ MonitorId := "abc123",
                    Executions := [{ ExecutionId := "e1", LocationId := "loc1" }] }] }

/-- An environment whose event sender rejects the started event. -/
def rejectingWorld (e : GoError) : World :=
  { exampleWorld { resp := none, err := some "unreachable" } (.error "unreachable") with
    SendTaskStartedEvent := fun _ => some e }

/-- An environment in which `DT_TENANT` fails to parse. -/
def badTenantWorld : World :=
  { exampleWorld { resp := none, err := some "unreachable" } (.error "unreachable") with
    urlParse := fun _ => .error "parse \":\": missing protocol scheme" }

/-- The environment of the unit test: no variable is set, every send is
accepted, and the HTTP call to the relative URL ends in a transport error. -/
def testWorld : World :=
  { exampleWorld
      { resp := none,
        err := some "Post \"/api/v2/synthetic/monitors/execute\": unsupported protocol scheme \"\"" }
      (.error "unreachable") with
    Getenv := fun _ => "" }

/-- An environment in which the monitoring API answers with status 500. -/
def serverErrorWorld : World :=
  exampleWorld { resp := some { StatusCode := 500, Body := "" }, err := none }
    (.error "unexpected end of JSON input")

/-- An environment in which the monitoring API answers with status 404. -/
def notFoundWorld : World :=
  exampleWorld { resp := some { StatusCode := 404, Body := "not found" }, err := none }
    (.error "invalid character")

/-- An environment in which the HTTP call ends in a transport error. -/
def transportErrorWorld : World :=
  exampleWorld { resp := none, err := some "dial tcp: connection refused" }
    (.error "unreachable")

/-- An environment in which the API answers 200 with a body that parses to
`body`. -/
def respondingWorld (body : ExecutionResponseBody) : World :=
  exampleWorld { resp := some { StatusCode := 200, Body := "response" }, err := none }
    (.ok body)

/-- An environment in which the API answers 200 with a body that does not
unmarshal. -/
def unparsableWorld : World :=
  exampleWorld { resp := some { StatusCode := 200, Body := "<html>" }, err := none }
    (.error "invalid character '<' looking for beginning of value")

/-- A parsed response in which one monitor was triggered and one was not. -/
def partialResponseBody : ExecutionResponseBody :=
  { exampleResponseBody with
    NotTriggeredCount := 1,
    NotTriggered := [{ MonitorId := "xyz789", Cause := "Monitor disabled" }] }

/-- A parsed response whose not-triggered counter is negative. -/
def negativeCountResponseBody : ExecutionResponseBody :=
  { exampleResponseBody with NotTriggeredCount := -1 }

/-- A trigger event whose monitor ID contains a double quote. -/
def quoteEvent : SyntheticEventData := { MonitorId := "a\"b" }

/-! ## JSON values and the JSON grammar

`encoding/json` is a library the handler relies on at both ends: the request
body is meant to be a JSON document, and the finished payload is encoded by
`json.Marshal` inside the keptn library. The grammar below is the one of
RFC 8259, which the decoder of `encoding/json` checks before it decodes. -/

/-- A JSON value; a number keeps its literal text, an object keeps its members
in document order. -/
inductive Json where
  | null
  | bool (b : Bool)
  | num (literal : String)
  | str (s : String)
  | arr (items : List Json)
  | obj (members : List (String × Json))

/-- The keys of a JSON object, in order. -/
def Json.keys : Json → List String
  | .obj members => members.map (fun kv => kv.1)
  | _ => []

/-- JSON whitespace: space, tab, line feed, carriage return. -/
def isWs (c : Char) : Bool :=
  c.toNat = 32 || c.toNat = 9 || c.toNat = 10 || c.toNat = 13

/-- Drop leading JSON whitespace. -/
def skipWs : List Char → List Char
  | [] => []
  | c :: cs => if isWs c then skipWs cs else c :: cs

/-- The value of a hexadecimal digit. -/
def hexDigit (c : Char) : Option Nat :=
  let n := c.toNat
  if 48 ≤ n ∧ n ≤ 57 then some (n - 48)
  else if 65 ≤ n ∧ n ≤ 70 then some (n - 55)
  else if 97 ≤ n ∧ n ≤ 102 then some (n - 87)
  else none

/-- The UTF-16 code unit written by four hexadecimal digits. -/
def hex4 (a b c d : Char) : Option Nat :=
  match hexDigit a, hexDigit b, hexDigit c, hexDigit d with
  | some x, some y, some z, some w => some (((x * 16 + y) * 16 + z) * 16 + w)
  | _, _, _, _ => none

/-- One element of a JSON string literal: a character written as itself, or a
UTF-16 code unit written as a `\u` escape. -/
inductive StrUnit where
  | lit (c : Char)
  | unit (n : Nat)
deriving DecidableEq, Repr

/-- Scan a JSON string literal after its opening quote up to and including the
closing quote. Control characters below U+0020 must be escaped; a backslash
starts one of the escapes of RFC 8259. -/
def scanString : List Char → Option (List StrUnit × List Char)
  | [] => none
  | c :: cs =>
    if c.toNat = 34 then some ([], cs)
    else if c.toNat = 92 then
      match cs with
      | [] => none
      | e :: rest =>
        if e.toNat = 117 then
          match rest with
          | a :: b :: c2 :: d :: rest2 =>
            match hex4 a b c2 d, scanString rest2 with
            | some n, some (us, r) => some (StrUnit.unit n :: us, r)
            | _, _ => none
          | _ => none
        else
          let decoded : Option Char :=
            if e.toNat = 34 then some (Char.ofNat 34)
            else if e.toNat = 92 then some (Char.ofNat 92)
            else if e.toNat = 47 then some (Char.ofNat 47)
            else if e.toNat = 98 then some (Char.ofNat 8)
            else if e.toNat = 102 then some (Char.ofNat 12)
            else if e.toNat = 110 then some (Char.ofNat 10)
            else if e.toNat = 114 then some (Char.ofNat 13)
            else if e.toNat = 116 then some (Char.ofNat 9)
            else none
          match decoded, scanString rest with
          | some ch, some (us, r) => some (StrUnit.lit ch :: us, r)
          | _, _ => none
    else if c.toNat < 32 then none
    else
      match scanString cs with
      | some (us, r) => some (StrUnit.lit c :: us, r)
      | none => none

/-- Turn the scanned elements into characters: a high surrogate followed by a
low surrogate is one character, a lone surrogate is U+FFFD. -/
def decodeUnits : List StrUnit → List Char
  | [] => []
  | StrUnit.lit c :: rest => c :: decodeUnits rest
  | StrUnit.unit hi :: StrUnit.unit lo :: rest =>
    if 55296 ≤ hi ∧ hi < 56320 ∧ 56320 ≤ lo ∧ lo < 57344 then
      Char.ofNat (65536 + (hi - 55296) * 1024 + (lo - 56320)) :: decodeUnits rest
    else if 55296 ≤ hi ∧ hi < 57344 then
      Char.ofNat 65533 :: decodeUnits (StrUnit.unit lo :: rest)
    else Char.ofNat hi :: decodeUnits (StrUnit.unit lo :: rest)
  | StrUnit.unit n :: rest =>
    if 55296 ≤ n ∧ n < 57344 then Char.ofNat 65533 :: decodeUnits rest
    else Char.ofNat n :: decodeUnits rest

/-- A JSON string literal after its opening quote, decoded. -/
def parseString (cs : List Char) : Option (String × List Char) :=
  match scanString cs with
  | some (us, rest) => some (String.mk (decodeUnits us), rest)
  | none => none

/-- Whether the character is a decimal digit. -/
def isDigit (c : Char) : Bool := 48 ≤ c.toNat && c.toNat ≤ 57

/-- Split off the leading decimal digits. -/
def takeDigits : List Char → List Char × List Char
  | [] => ([], [])
  | c :: cs =>
    if isDigit c then ((takeDigits cs).1.cons c, (takeDigits cs).2) else ([], c :: cs)

/-- The integer part of a JSON number: `0`, or a non-zero digit followed by
digits. -/
def scanInt : List Char → Option (List Char × List Char)
  | [] => none
  | c :: cs =>
    if c.toNat = 48 then some ([c], cs)
    else if isDigit c then some (c :: (takeDigits cs).1, (takeDigits cs).2)
    else none

/-- The optional fraction of a JSON number: a dot followed by at least one
digit. -/
def scanFrac : List Char → Option (List Char × List Char)
  | [] => some ([], [])
  | c :: cs =>
    if c.toNat = 46 then
      if (takeDigits cs).1.isEmpty then none
      else some (c :: (takeDigits cs).1, (takeDigits cs).2)
    else some ([], c :: cs)

/-- The optional exponent of a JSON number: `e` or `E`, an optional sign, at
least one digit. -/
def scanExp : List Char → Option (List Char × List Char)
  | [] => some ([], [])
  | c :: cs =>
    if c.toNat = 101 ∨ c.toNat = 69 then
      match cs with
      | [] => none
      | s :: cs2 =>
        if s.toNat = 43 ∨ s.toNat = 45 then
          if (takeDigits cs2).1.isEmpty then none
          else some (c :: s :: (takeDigits cs2).1, (takeDigits cs2).2)
        else if (takeDigits cs).1.isEmpty then none
        else some (c :: (takeDigits cs).1, (takeDigits cs).2)
    else some ([], c :: cs)

/-- A JSON number literal: optional minus, integer part, optional fraction,
optional exponent. -/
def scanNumber (cs : List Char) : Option (List Char × List Char) :=
  let signed : List Char × List Char :=
    match cs with
    | c :: rest => if c.toNat = 45 then ([c], rest) else ([], cs)
    | [] => ([], [])
  match scanInt signed.2 with
  | none => none
  | some (i, r1) =>
    match scanFrac r1 with
    | none => none
    | some (f, r2) =>
      match scanExp r2 with
      | none => none
      | some (e, r3) => some (signed.1 ++ i ++ f ++ e, r3)

/-- Whether the input starts with the given characters; the rest after them. -/
def dropLiteral : List Char → List Char → Option (List Char)
  | [], cs => some cs
  | _ :: _, [] => none
  | l :: ls, c :: cs => if l = c then dropLiteral ls cs else none

mutual
/-- One JSON value, after optional whitespace. The first argument bounds the
number of nested calls. -/
def parseValue : Nat → List Char → Option (Json × List Char)
  | 0, _ => none
  | fuel + 1, cs =>
    match skipWs cs with
    | [] => none
    | c :: rest =>
      if c.toNat = 123 then
        match skipWs rest with
        | [] => none
        | c2 :: rest2 =>
          if c2.toNat = 125 then some (Json.obj [], rest2)
          else
            match parseMembers fuel (c2 :: rest2) with
            | some (ms, r) => some (Json.obj ms, r)
            | none => none
      else if c.toNat = 91 then
        match skipWs rest with
        | [] => none
        | c2 :: rest2 =>
          if c2.toNat = 93 then some (Json.arr [], rest2)
          else
            match parseElements fuel (c2 :: rest2) with
            | some (vs, r) => some (Json.arr vs, r)
            | none => none
      else if c.toNat = 34 then
        match parseString rest with
        | some (s, r) => some (Json.str s, r)
        | none => none
      else if c.toNat = 116 then
        (dropLiteral "rue".data rest).map (fun r => (Json.bool true, r))
      else if c.toNat = 102 then
        (dropLiteral "alse".data rest).map (fun r => (Json.bool false, r))
      else if c.toNat = 110 then
        (dropLiteral "ull".data rest).map (fun r => (Json.null, r))
      else
        match scanNumber (c :: rest) with
        | some (lit, r) => some (Json.num (String.mk lit), r)
        | none => none
/-- The elements of a non-empty JSON array up to and including the closing
bracket. -/
def parseElements : Nat → List Char → Option (List Json × List Char)
  | 0, _ => none
  | fuel + 1, cs =>
    match parseValue fuel cs with
    | none => none
    | some (v, rest) =>
      match skipWs rest with
      | [] => none
      | c :: rest2 =>
        if c.toNat = 44 then
          match parseElements fuel rest2 with
          | some (vs, r) => some (v :: vs, r)
          | none => none
        else if c.toNat = 93 then some ([v], rest2)
        else none
/-- The members of a non-empty JSON object up to and including the closing
brace. -/
def parseMembers : Nat → List Char → Option (List (String × Json) × List Char)
  | 0, _ => none
  | fuel + 1, cs =>
    match skipWs cs with
    | [] => none
    | q :: rest =>
      if q.toNat = 34 then
        match parseString rest with
        | none => none
        | some (key, rest2) =>
          match skipWs rest2 with
          | [] => none
          | colon :: rest3 =>
            if colon.toNat = 58 then
              match parseValue fuel rest3 with
              | none => none
              | some (v, rest4) =>
                match skipWs rest4 with
                | [] => none
                | c :: rest5 =>
                  if c.toNat = 44 then
                    match parseMembers fuel rest5 with
                    | some (ms, r) => some ((key, v) :: ms, r)
                    | none => none
                  else if c.toNat = 125 then some ([(key, v)], rest5)
                  else none
            else none
      else none
end

/-- A whole JSON document: one value, surrounded by optional whitespace. A
nested call consumes a character at least every second time, so twice the
length of the input bounds the nesting. -/
def parseJson (s : String) : Option Json :=
  match parseValue (2 * s.data.length + 2) s.data with
  | some (v, rest) => if (skipWs rest).isEmpty then some v else none
  | none => none

/-! ## Encoding of Go structs by `json.Marshal`

The keptn library encodes the payload it is handed with `json.Marshal`. The
rules of `encoding/json` for struct fields are modelled on a description of a
Go value: a field is encoded under the name in its tag, or under its Go name
when it has none; the fields of an embedded struct without a tag are encoded as
if they were fields of the outer struct; a field tagged `omitempty` is left out
when its value is empty; a named struct field is encoded as a nested object.
Two fields with the same JSON name do not occur in the structs of this
program, so the rule that resolves such a clash is not modelled. -/

/-- The declaration of one struct field as `encoding/json` sees it. -/
structure FieldDecl where
  name : String
  tag : Option String := none
  omitempty : Bool := false
  embedded : Bool := false
deriving DecidableEq, Repr

mutual
/-- A Go value of one of the types that occur in the payloads: `string`,
a non-nil `[]string`, `map[string]string`, or a struct. -/
inductive GoValue where
  | string (s : String)
  | strings (xs : List String)
  | stringMap (m : List (String × String))
  | struct (fields : GoFields)
/-- The fields of a Go struct value, in declaration order. -/
inductive GoFields where
  | nil
  | cons (decl : FieldDecl) (value : GoValue) (rest : GoFields)
end

/-- The fields of a struct from a list of declarations with their values. -/
def GoFields.ofList : List (FieldDecl × GoValue) → GoFields
  | [] => GoFields.nil
  | (d, v) :: rest => GoFields.cons d v (GoFields.ofList rest)

/-- The emptiness test of `omitempty`: an empty string, slice or map; a struct
is never empty. -/
def GoValue.isEmpty : GoValue → Bool
  | .string s => s.data.isEmpty
  | .strings xs => xs.isEmpty
  | .stringMap m => m.isEmpty
  | .struct _ => false

/-- Byte order on map keys, by which `json.Marshal` sorts the keys of a map. -/
def keyLe : List Char → List Char → Bool
  | [], _ => true
  | _ :: _, [] => false
  | a :: as, b :: bs => a.toNat < b.toNat || (a.toNat = b.toNat && keyLe as bs)

/-- Insert a map entry into a list of entries sorted by key. -/
def insertByKey (kv : String × String) : List (String × String) → List (String × String)
  | [] => [kv]
  | x :: rest =>
    if keyLe kv.1.data x.1.data then kv :: x :: rest else x :: insertByKey kv rest

/-- The encoding of a value that is not a struct. -/
def marshalBasic : GoValue → Json
  | .string s => Json.str s
  | .strings xs => Json.arr (xs.map Json.str)
  | .stringMap m =>
    Json.obj ((m.foldr insertByKey []).map (fun kv => (kv.1, Json.str kv.2)))
  | .struct _ => Json.null

/-- The members `json.Marshal` writes for the fields of a struct. -/
def marshalFields : GoFields → List (String × Json)
  | .nil => []
  | .cons d (.struct inner) rest =>
    if d.embedded && d.tag.isNone then marshalFields inner ++ marshalFields rest
    else (d.tag.getD d.name, Json.obj (marshalFields inner)) :: marshalFields rest
  | .cons d v rest =>
    if d.omitempty && v.isEmpty then marshalFields rest
    else (d.tag.getD d.name, marshalBasic v) :: marshalFields rest

/-- The JSON value `json.Marshal` writes for a Go value. -/
def marshal : GoValue → Json
  | .struct fields => Json.obj (marshalFields fields)
  | v => marshalBasic v

/-- The struct `keptnv2.EventData` as a Go value: seven fields, each tagged with
its lower-case name and `omitempty`. -/
def EventData.toGo (d : EventData) : GoValue :=
  .struct (.ofList [
    ({ name := "Project", tag := some "project", omitempty := true }, .string d.Project),
    ({ name := "Stage", tag := some "stage", omitempty := true }, .string d.Stage),
    ({ name := "Service", tag := some "service", omitempty := true }, .string d.Service),
    ({ name := "Labels", tag := some "labels", omitempty := true }, .stringMap d.Labels),
    ({ name := "Status", tag := some "status", omitempty := true }, .string d.Status),
    ({ name := "Result", tag := some "result", omitempty := true }, .string d.Result),
    ({ name := "Message", tag := some "message", omitempty := true }, .string d.Message)])

/-- The struct `SyntheticExecution` as a Go value (lines 33-36). -/
def SyntheticExecution.toGo (e : SyntheticExecution) : GoValue :=
  .struct (.ofList [
    ({ name := "BatchId", tag := some "batchId" }, .string e.BatchId),
    ({ name := "ExecutionIds", tag := some "executionIds" }, .strings e.ExecutionIds)])

/-- The struct `SyntheticSuccessfulEventData` as a Go value (lines 28-31):
`keptnv2.EventData` is embedded, `SyntheticExecution` is a named field of
struct type without a tag. -/
def SyntheticSuccessfulEventData.toGo (d : SyntheticSuccessfulEventData) : GoValue :=
  .struct (.ofList [
    ({ name := "EventData", embedded := true }, d.EventData.toGo),
    ({ name := "SyntheticExecution" }, d.SyntheticExecution.toGo)])

/-- The Go value behind a finished payload. -/
def FinishedPayload.toGo : FinishedPayload → GoValue
  | .eventData d => d.toGo
  | .syntheticSuccessful d => d.toGo

/-! ## Failure causes -/

/-- The failure causes after the started event was sent. -/
inductive FailureCause where
  | tenantParse
  | transport
  | responseParse
  | notTriggered
deriving DecidableEq, Repr

/-- The HTTP call of the run was made, came back without a transport error
with status 200, and the body unmarshalled to `body`. -/
def respondsWith (w : World) (d : SyntheticEventData) (body : ExecutionResponseBody) : Prop :=
  ∃ req resp, Effect.httpDo req ∈ (SyntheticCloudEventHandler w d).trace ∧
    w.httpClientDo req = { resp := some resp, err := none } ∧
    resp.StatusCode = 200 ∧ w.jsonUnmarshal resp.Body = .ok body

/-- What it means that a failure cause occurs in the run of the handler in the
environment `w` on the event `d`. -/
def FailureCause.occurs (w : World) (d : SyntheticEventData) : FailureCause → Prop
  | .tenantParse =>
    w.SendTaskStartedEvent d = none ∧ ∃ e, w.urlParse (w.Getenv "DT_TENANT") = .error e
  | .transport =>
    ∃ req e, Effect.httpDo req ∈ (SyntheticCloudEventHandler w d).trace ∧
      (w.httpClientDo req).err = some e
  | .responseParse =>
    ∃ req resp e, Effect.httpDo req ∈ (SyntheticCloudEventHandler w d).trace ∧
      w.httpClientDo req = { resp := some resp, err := none } ∧
      resp.StatusCode = 200 ∧ w.jsonUnmarshal resp.Body = .error e
  | .notTriggered =>
    ∃ body, respondsWith w d body ∧ body.NotTriggeredCount > 0

/-- A character that may stand for itself inside a JSON string literal: not the
quote, not the backslash, not a control character. -/
def safeChar (c : Char) : Prop := c.toNat ≠ 34 ∧ c.toNat ≠ 92 ∧ 32 ≤ c.toNat

instance (c : Char) : Decidable (safeChar c) := by
  unfold safeChar; exact inferInstance

/-- The document the request body is meant to be: one monitor to trigger, with
the given ID and no locations. -/
def expectedRequestDocument (monitorId : String) : Json :=
  .obj [("monitorsToTrigger",
    .arr [.obj [("monitorId", .str monitorId), ("locations", .arr [])]])]

end DtSynthetic

/-! # Theorems -/

namespace DtSynthetic

/-! ## The loops that collect execution IDs -/

theorem foldl_append_executionIds (es : List Execution) (acc : List String) :
    es.foldl (fun ids e => ids ++ [e.ExecutionId]) acc
      = acc ++ es.map (fun e => e.ExecutionId) := by
  induction es generalizing acc with
  | nil => simp
  | cons e es ih => simp [ih]

theorem foldl_collect (ts : List ExecutionTriggered) (acc : List String) :
    ts.foldl (fun ids t => t.Executions.foldl (fun ids e => ids ++ [e.ExecutionId]) ids) acc
      = acc ++ ts.flatMap (fun t => t.Executions.map (fun e => e.ExecutionId)) := by
  induction ts generalizing acc with
  | nil => simp
  | cons t ts ih =>
    rw [List.foldl_cons, ih, foldl_append_executionIds]
    simp

theorem collectExecutionIds_eq (body : ExecutionResponseBody) :
    collectExecutionIds body.Triggered = triggeredExecutionIds body := by
  simp [collectExecutionIds, triggeredExecutionIds, foldl_collect]

theorem mem_triggeredExecutionIds (body : ExecutionResponseBody) (s : String) :
    s ∈ triggeredExecutionIds body ↔
      ∃ t ∈ body.Triggered, ∃ e ∈ t.Executions, e.ExecutionId = s := by
  simp [triggeredExecutionIds, List.mem_flatMap]

/-! ## The shape of a run -/

theorem failWith_trace (w : World) (before : List Effect) (m : String) :
    (failWith w before m).trace
      = before ++ [Effect.sentFinished (.eventData (erroredEventData m))] := rfl

theorem failWith_outcome (w : World) (before : List Effect) (m : String) :
    (failWith w before m).outcome
      = Outcome.returned (w.SendTaskFinishedEvent (.eventData (erroredEventData m))) := rfl

theorem handleResponse_trace (w : World) (before : List Effect) (resp : Response) :
    ∃ p, (handleResponse w before resp).trace = before ++ [Effect.sentFinished p] := by
  unfold handleResponse
  cases w.jsonUnmarshal resp.Body with
  | error e => exact ⟨_, rfl⟩
  | ok body =>
    by_cases hc : body.NotTriggeredCount > 0
    · simp only [hc, if_true]; exact ⟨_, rfl⟩
    · simp only [hc, if_false]; exact ⟨_, rfl⟩

theorem handleDoResult_trace (w : World) (before : List Effect) (r : DoResult) :
    (handleDoResult w before r).trace = before ∨
      ∃ p, (handleDoResult w before r).trace = before ++ [Effect.sentFinished p] := by
  obtain ⟨resp, err⟩ := r
  cases err with
  | some e => exact Or.inr ⟨_, rfl⟩
  | none =>
    cases resp with
    | none => exact Or.inl rfl
    | some resp =>
      by_cases hc : resp.StatusCode = 200
      · right
        have : handleDoResult w before { resp := some resp, err := none }
            = handleResponse w before resp := by simp [handleDoResult, hc]
        rw [this]
        exact handleResponse_trace w before resp
      · left
        simp [handleDoResult, hc]

theorem headers_built (token : String) :
    Header.Set (Header.Set [] "Authorization" ("Api-Token " ++ token))
        "Content-Type" "application/json"
      = [("Authorization", "Api-Token " ++ token), ("Content-Type", "application/json")] := by
  simp [Header.Set]

/-- A request in the trace is the request the handler built: the started event
was accepted, the request is a POST with the body of `jsonData` and the two
headers, and the rest of the run is decided by the result of `httpClient.Do`. -/
theorem trace_httpDo (w : World) (d : SyntheticEventData) (req : Request)
    (h : Effect.httpDo req ∈ (SyntheticCloudEventHandler w d).trace) :
    w.SendTaskStartedEvent d = none ∧ req.Method = "POST" ∧
    req.Body = jsonData d.MonitorId ∧
    req.Header = [("Authorization", "Api-Token " ++ w.Getenv "DT_API_TOKEN"),
                  ("Content-Type", "application/json")] ∧
    SyntheticCloudEventHandler w d
      = handleDoResult w [Effect.sentStarted d, Effect.httpDo req] (w.httpClientDo req) := by
  unfold SyntheticCloudEventHandler at h ⊢
  cases hs : w.SendTaskStartedEvent d with
  | some e => simp [hs] at h
  | none =>
    simp only [hs] at h ⊢
    cases hu : w.urlParse (w.Getenv "DT_TENANT") with
    | error e => simp [hu, failWith] at h
    | ok u =>
      simp only [hu] at h ⊢
      cases hn : w.newRequestError "POST"
          (w.urlString { u with Path := w.pathJoin u.Path "/api/v2/synthetic/monitors/execute" }) with
      | some e => simp [hn, failWith] at h
      | none =>
        simp only [hn, headers_built, Option.isSome_none, Bool.false_eq_true, if_false,
          List.singleton_append] at h ⊢
        have hreq : Effect.httpDo req ∈ [Effect.sentStarted d, Effect.httpDo
            { Method := "POST",
              URL := w.urlString
                { u with Path := w.pathJoin u.Path "/api/v2/synthetic/monitors/execute" },
              Body := jsonData d.MonitorId,
              Header := [("Authorization", "Api-Token " ++ w.Getenv "DT_API_TOKEN"),
                         ("Content-Type", "application/json")] }] := by
          rcases handleDoResult_trace w _ (w.httpClientDo _) with ht | ⟨p, ht⟩
          · rw [ht] at h; exact h
          · rw [ht] at h; simpa using h
        simp only [List.mem_cons, List.mem_singleton, Effect.httpDo.injEq, List.not_mem_nil,
          or_false, false_or, reduceCtorEq] at hreq
        subst hreq
        exact ⟨trivial, rfl, rfl, rfl, rfl⟩

theorem run_tenantParse (w : World) (d : SyntheticEventData) (e : GoError)
    (hs : w.SendTaskStartedEvent d = none)
    (hu : w.urlParse (w.Getenv "DT_TENANT") = .error e) :
    SyntheticCloudEventHandler w d
      = failWith w [Effect.sentStarted d] "Failed to parse DT_TENANT!" := by
  simp [SyntheticCloudEventHandler, hs, hu]

theorem run_transport (w : World) (d : SyntheticEventData) (req : Request) (e : GoError)
    (hcall : Effect.httpDo req ∈ (SyntheticCloudEventHandler w d).trace)
    (herr : (w.httpClientDo req).err = some e) :
    SyntheticCloudEventHandler w d
      = failWith w [Effect.sentStarted d, Effect.httpDo req]
          "Failed to trigger Synthetic monitor!" := by
  rw [(trace_httpDo w d req hcall).2.2.2.2]
  simp [handleDoResult, herr]

theorem run_response (w : World) (d : SyntheticEventData) (req : Request) (resp : Response)
    (hcall : Effect.httpDo req ∈ (SyntheticCloudEventHandler w d).trace)
    (hdo : w.httpClientDo req = { resp := some resp, err := none })
    (h200 : resp.StatusCode = 200) :
    SyntheticCloudEventHandler w d
      = handleResponse w [Effect.sentStarted d, Effect.httpDo req] resp := by
  rw [(trace_httpDo w d req hcall).2.2.2.2]
  simp [handleDoResult, hdo, h200]

/-- Every response without a transport error and with a status code other than
200 ends the run in a panic right after the HTTP call. -/
theorem run_non200 (w : World) (d : SyntheticEventData) (req : Request) (resp : Response)
    (hcall : Effect.httpDo req ∈ (SyntheticCloudEventHandler w d).trace)
    (hdo : w.httpClientDo req = { resp := some resp, err := none })
    (hne : resp.StatusCode ≠ 200) :
    SyntheticCloudEventHandler w d
      = { trace := [Effect.sentStarted d, Effect.httpDo req], outcome := Outcome.panicked } := by
  rw [(trace_httpDo w d req hcall).2.2.2.2]
  simp [handleDoResult, hdo, hne]

theorem run_responseParse (w : World) (d : SyntheticEventData) (req : Request)
    (resp : Response) (e : GoError)
    (hcall : Effect.httpDo req ∈ (SyntheticCloudEventHandler w d).trace)
    (hdo : w.httpClientDo req = { resp := some resp, err := none })
    (h200 : resp.StatusCode = 200) (hj : w.jsonUnmarshal resp.Body = .error e) :
    SyntheticCloudEventHandler w d
      = failWith w [Effect.sentStarted d, Effect.httpDo req]
          "Failed to trigger Synthetic monitor!" := by
  rw [run_response w d req resp hcall hdo h200]
  simp [handleResponse, hj]

theorem run_notTriggered (w : World) (d : SyntheticEventData) (req : Request)
    (resp : Response) (body : ExecutionResponseBody)
    (hcall : Effect.httpDo req ∈ (SyntheticCloudEventHandler w d).trace)
    (hdo : w.httpClientDo req = { resp := some resp, err := none })
    (h200 : resp.StatusCode = 200) (hj : w.jsonUnmarshal resp.Body = .ok body)
    (hpos : body.NotTriggeredCount > 0) :
    SyntheticCloudEventHandler w d
      = failWith w [Effect.sentStarted d, Effect.httpDo req]
          "Failed to trigger Synthetic monitor!" := by
  rw [run_response w d req resp hcall hdo h200]
  simp [handleResponse, hj, hpos]

theorem run_triggered (w : World) (d : SyntheticEventData) (req : Request)
    (resp : Response) (body : ExecutionResponseBody)
    (hcall : Effect.httpDo req ∈ (SyntheticCloudEventHandler w d).trace)
    (hdo : w.httpClientDo req = { resp := some resp, err := none })
    (h200 : resp.StatusCode = 200) (hj : w.jsonUnmarshal resp.Body = .ok body)
    (hle : body.NotTriggeredCount ≤ 0) :
    SyntheticCloudEventHandler w d
      = { trace := [Effect.sentStarted d, Effect.httpDo req,
            Effect.sentFinished (.syntheticSuccessful (syntheticSuccessfulEventData body))],
          outcome := Outcome.returned (w.SendTaskFinishedEvent
            (.syntheticSuccessful (syntheticSuccessfulEventData body))) } := by
  rw [run_response w d req resp hcall hdo h200]
  have hn : ¬ body.NotTriggeredCount > 0 := by omega
  simp [handleResponse, hj, hn]

/-- Every failure cause ends the run the same way: the errored finished event
is sent with some message, and its send result is what the handler returns. -/
theorem run_failure (w : World) (d : SyntheticEventData) (c : FailureCause)
    (h : c.occurs w d) :
    ∃ before m, SyntheticCloudEventHandler w d = failWith w before m ∧
      (before = [Effect.sentStarted d] ∨
        ∃ req, before = [Effect.sentStarted d, Effect.httpDo req]) := by
  cases c with
  | tenantParse =>
    obtain ⟨hs, e, hu⟩ := h
    exact ⟨_, _, run_tenantParse w d e hs hu, Or.inl rfl⟩
  | transport =>
    obtain ⟨req, e, hcall, herr⟩ := h
    exact ⟨_, _, run_transport w d req e hcall herr, Or.inr ⟨req, rfl⟩⟩
  | responseParse =>
    obtain ⟨req, resp, e, hcall, hdo, h200, hj⟩ := h
    exact ⟨_, _, run_responseParse w d req resp e hcall hdo h200 hj, Or.inr ⟨req, rfl⟩⟩
  | notTriggered =>
    obtain ⟨body, ⟨req, resp, hcall, hdo, h200, hj⟩, hpos⟩ := h
    exact ⟨_, _, run_notTriggered w d req resp body hcall hdo h200 hj hpos, Or.inr ⟨req, rfl⟩⟩

/-- Each of the four failure causes occurs in one of the example
environments. -/
theorem failure_causes_occur :
    FailureCause.tenantParse.occurs badTenantWorld exampleEvent ∧
    FailureCause.transport.occurs transportErrorWorld exampleEvent ∧
    FailureCause.responseParse.occurs unparsableWorld exampleEvent ∧
    FailureCause.notTriggered.occurs (respondingWorld partialResponseBody) exampleEvent :=
  ⟨⟨rfl, _, rfl⟩,
   ⟨exampleRequest, _, by decide, rfl⟩,
   ⟨exampleRequest, _, _, by decide, rfl, rfl, rfl⟩,
   ⟨partialResponseBody,
    ⟨exampleRequest, { StatusCode := 200, Body := "response" }, by decide, rfl, rfl, rfl⟩,
    by decide⟩⟩

theorem failWith_sentEvents (w : World) (d : SyntheticEventData) (before : List Effect)
    (m : String)
    (hb : before = [Effect.sentStarted d] ∨
      ∃ req, before = [Effect.sentStarted d, Effect.httpDo req]) :
    (failWith w before m).sentEvents
      = [Effect.sentStarted d, Effect.sentFinished (.eventData (erroredEventData m))] := by
  rcases hb with hb | ⟨req, hb⟩ <;> subst hb <;> simp [failWith, Run.sentEvents]

/-! ## Lifecycle events -/

/-- Whenever the started event is accepted, the sender is handed the started
event and then one finished event, unless `httpClient.Do` came back without a
transport error and without a 200 response: then the run panics after the
started event alone. -/
theorem two_events_unless_panic (w : World) (d : SyntheticEventData)
    (hs : w.SendTaskStartedEvent d = none) :
    (∃ p, (SyntheticCloudEventHandler w d).sentEvents
        = [Effect.sentStarted d, Effect.sentFinished p] ∧
      ∃ err, (SyntheticCloudEventHandler w d).outcome = Outcome.returned err) ∨
    ((SyntheticCloudEventHandler w d).sentEvents = [Effect.sentStarted d] ∧
      (SyntheticCloudEventHandler w d).outcome = Outcome.panicked ∧
      ∃ req, Effect.httpDo req ∈ (SyntheticCloudEventHandler w d).trace ∧
        (w.httpClientDo req).err = none ∧
        ∀ resp, (w.httpClientDo req).resp = some resp → resp.StatusCode ≠ 200) := by
  cases hu : w.urlParse (w.Getenv "DT_TENANT") with
  | error e =>
    left
    rw [run_tenantParse w d e hs hu]
    exact ⟨_, failWith_sentEvents w d _ _ (Or.inl rfl), _, rfl⟩
  | ok u =>
    cases hn : w.newRequestError "POST"
        (w.urlString { u with Path := w.pathJoin u.Path "/api/v2/synthetic/monitors/execute" }) with
    | some e =>
      left
      have hrun : SyntheticCloudEventHandler w d
          = failWith w [Effect.sentStarted d] "Failed to trigger Synthetic monitor!" := by
        simp [SyntheticCloudEventHandler, hs, hu, hn]
      rw [hrun]
      exact ⟨_, failWith_sentEvents w d _ _ (Or.inl rfl), _, rfl⟩
    | none =>
      obtain ⟨req, hcall⟩ : ∃ req, Effect.httpDo req ∈ (SyntheticCloudEventHandler w d).trace := by
        refine ⟨{ Method := "POST",
                  URL := w.urlString
                    { u with Path := w.pathJoin u.Path "/api/v2/synthetic/monitors/execute" },
                  Body := jsonData d.MonitorId,
                  Header := [("Authorization", "Api-Token " ++ w.Getenv "DT_API_TOKEN"),
                             ("Content-Type", "application/json")] }, ?_⟩
        simp only [SyntheticCloudEventHandler, hs, hu, hn, headers_built, Option.isSome_none,
          Bool.false_eq_true, if_false, List.singleton_append]
        rcases handleDoResult_trace w _ (w.httpClientDo _) with ht | ⟨p, ht⟩
        · rw [ht]; simp
        · rw [ht]; simp
      cases herr : (w.httpClientDo req).err with
      | some e =>
        left
        rw [run_transport w d req e hcall herr]
        exact ⟨_, failWith_sentEvents w d _ _ (Or.inr ⟨req, rfl⟩), _, rfl⟩
      | none =>
        cases hresp : (w.httpClientDo req).resp with
        | none =>
          right
          rw [(trace_httpDo w d req hcall).2.2.2.2]
          refine ⟨?_, ?_, req, ?_, herr, ?_⟩
          · simp [handleDoResult, herr, hresp, Run.sentEvents]
          · simp [handleDoResult, herr, hresp]
          · rw [← (trace_httpDo w d req hcall).2.2.2.2]; exact hcall
          · intro resp h
            rw [hresp] at h
            cases h
        | some resp =>
          have hdo : w.httpClientDo req = { resp := some resp, err := none } := by
            cases hr : w.httpClientDo req
            simp_all
          by_cases h200 : resp.StatusCode = 200
          · left
            rw [run_response w d req resp hcall hdo h200]
            obtain ⟨p, hp⟩ := handleResponse_trace w
              [Effect.sentStarted d, Effect.httpDo req] resp
            refine ⟨p, ?_, ?_⟩
            · simp [Run.sentEvents, hp]
            · unfold handleResponse
              cases w.jsonUnmarshal resp.Body with
              | error e => exact ⟨_, rfl⟩
              | ok body =>
                by_cases hc : body.NotTriggeredCount > 0
                · simp only [hc, if_true]; exact ⟨_, rfl⟩
                · simp only [hc, if_false]; exact ⟨_, rfl⟩
          · right
            have hrun := run_non200 w d req resp hcall hdo h200
            refine ⟨?_, ?_, req, hcall, herr, ?_⟩
            · rw [hrun]; simp [Run.sentEvents]
            · rw [hrun]
            · intro r hr
              rw [hresp] at hr
              cases hr
              exact h200

/-- C1, evaluated on the code: when the monitoring API answers with status 500
and no transport error, the started event is accepted, yet the event sender
is handed that one event only and the run ends in a panic, not in two events. -/
theorem server_error_single_event :
    serverErrorWorld.SendTaskStartedEvent exampleEvent = none ∧
    (SyntheticCloudEventHandler serverErrorWorld exampleEvent).httpCalls = [exampleRequest] ∧
    serverErrorWorld.httpClientDo exampleRequest
      = { resp := some { StatusCode := 500, Body := "" }, err := none } ∧
    (SyntheticCloudEventHandler serverErrorWorld exampleEvent).sentEvents
      = [Effect.sentStarted exampleEvent] ∧
    (SyntheticCloudEventHandler serverErrorWorld exampleEvent).sentEvents.length ≠ 2 ∧
    (SyntheticCloudEventHandler serverErrorWorld exampleEvent).outcome = Outcome.panicked := by
  decide

/-- C3, evaluated on the code: when the monitoring API answers with status 404
and no transport error, the run consists of the started event and the HTTP
call and ends in a panic: the errored finished event of lines 136-140 is not
sent and no error is returned. -/
theorem not_found_panics :
    notFoundWorld.httpClientDo exampleRequest
      = { resp := some { StatusCode := 404, Body := "not found" }, err := none } ∧
    SyntheticCloudEventHandler notFoundWorld exampleEvent
      = { trace := [Effect.sentStarted exampleEvent, Effect.httpDo exampleRequest],
          outcome := Outcome.panicked } ∧
    (SyntheticCloudEventHandler notFoundWorld exampleEvent).sentEvents
      = [Effect.sentStarted exampleEvent] := by
  decide

/-- C6: if sending the started event fails with error `e`, the handler returns
`e`; the started event is the only call it made, so no finished event is sent
and no HTTP call is made. -/
theorem started_send_failure_aborts (w : World) (d : SyntheticEventData) (e : GoError)
    (h : w.SendTaskStartedEvent d = some e) :
    (SyntheticCloudEventHandler w d).outcome = Outcome.returned (some e) ∧
    (SyntheticCloudEventHandler w d).trace = [Effect.sentStarted d] ∧
    (∀ p, Effect.sentFinished p ∉ (SyntheticCloudEventHandler w d).trace) ∧
    (SyntheticCloudEventHandler w d).httpCalls = [] := by
  have hrun : SyntheticCloudEventHandler w d
      = { trace := [Effect.sentStarted d], outcome := Outcome.returned (some e) } := by
    simp [SyntheticCloudEventHandler, h]
  rw [hrun]
  simp [Run.httpCalls]

/-- The abort at an event sender that refuses the started event. -/
theorem started_send_failure_aborts_witness :
    (SyntheticCloudEventHandler (rejectingWorld "connection refused") exampleEvent).outcome
      = Outcome.returned (some "connection refused") ∧
    (SyntheticCloudEventHandler (rejectingWorld "connection refused") exampleEvent).trace
      = [Effect.sentStarted exampleEvent] ∧
    (∀ p, Effect.sentFinished p ∉
      (SyntheticCloudEventHandler (rejectingWorld "connection refused") exampleEvent).trace) ∧
    (SyntheticCloudEventHandler (rejectingWorld "connection refused") exampleEvent).httpCalls
      = [] :=
  started_send_failure_aborts (rejectingWorld "connection refused") exampleEvent
    "connection refused" (by decide)

/-! ## The success path -/

/-- C2: when the API answers 200 and the body parses to a response whose
notTriggeredCount is 0, the sender is handed the started event and then a
finished event whose payload has status succeeded, result pass, the batch ID of
the response, and as execution IDs the executionId of every execution of every
entry of triggered, in response order; a string is among them exactly when it
is the executionId of some triggered execution. -/
theorem success_path_payload (w : World) (d : SyntheticEventData)
    (body : ExecutionResponseBody)
    (h : respondsWith w d body) (h0 : body.NotTriggeredCount = 0) :
    ∃ p : SyntheticSuccessfulEventData,
      (SyntheticCloudEventHandler w d).sentEvents
        = [Effect.sentStarted d, Effect.sentFinished (.syntheticSuccessful p)] ∧
      p.EventData.Status = StatusSucceeded ∧
      p.EventData.Result = ResultPass ∧
      p.SyntheticExecution.BatchId = body.BatchId ∧
      p.SyntheticExecution.ExecutionIds = triggeredExecutionIds body ∧
      ∀ s, s ∈ p.SyntheticExecution.ExecutionIds ↔
        ∃ t ∈ body.Triggered, ∃ e ∈ t.Executions, e.ExecutionId = s := by
  obtain ⟨req, resp, hcall, hdo, h200, hj⟩ := h
  have hrun := run_triggered w d req resp body hcall hdo h200 hj (by omega)
  refine ⟨syntheticSuccessfulEventData body, ?_, rfl, rfl, rfl, ?_, ?_⟩
  · rw [hrun]; simp [Run.sentEvents]
  · exact collectExecutionIds_eq body
  · intro s
    show s ∈ collectExecutionIds body.Triggered ↔ _
    rw [collectExecutionIds_eq]
    exact mem_triggeredExecutionIds body s

/-- The spec example: the response with batch `b1` and execution `e1` yields the
finished payload succeeded/pass with batchId `b1` and executionIds `[e1]`. -/
theorem success_path_payload_witness :
    (SyntheticCloudEventHandler (respondingWorld exampleResponseBody) exampleEvent).sentEvents
      = [Effect.sentStarted exampleEvent,
         Effect.sentFinished (.syntheticSuccessful
           { EventData := { Status := "succeeded", Result := "pass" },
             SyntheticExecution := { BatchId := "b1", ExecutionIds := ["e1"] } })] ∧
    ∃ p : SyntheticSuccessfulEventData,
      (SyntheticCloudEventHandler (respondingWorld exampleResponseBody) exampleEvent).sentEvents
        = [Effect.sentStarted exampleEvent, Effect.sentFinished (.syntheticSuccessful p)] ∧
      p.EventData.Status = StatusSucceeded ∧
      p.EventData.Result = ResultPass ∧
      p.SyntheticExecution.BatchId = exampleResponseBody.BatchId ∧
      p.SyntheticExecution.ExecutionIds = triggeredExecutionIds exampleResponseBody ∧
      ∀ s, s ∈ p.SyntheticExecution.ExecutionIds ↔
        ∃ t ∈ exampleResponseBody.Triggered, ∃ e ∈ t.Executions, e.ExecutionId = s :=
  ⟨by decide,
   success_path_payload (respondingWorld exampleResponseBody) exampleEvent exampleResponseBody
    ⟨exampleRequest, { StatusCode := 200, Body := "response" }, by decide, rfl, rfl, rfl⟩
    rfl⟩

/-! ## Classification of the response -/

/-- C9, at a negative counter: a 200 response whose notTriggeredCount parses to
-1, a value an int16 holds and that is not zero, is reported with a finished
event of status succeeded and result pass. -/
theorem negative_count_reported_as_success :
    isInt16 negativeCountResponseBody.NotTriggeredCount ∧
    negativeCountResponseBody.NotTriggeredCount ≠ 0 ∧
    respondsWith (respondingWorld negativeCountResponseBody) exampleEvent
      negativeCountResponseBody ∧
    (SyntheticCloudEventHandler (respondingWorld negativeCountResponseBody)
        exampleEvent).sentEvents
      = [Effect.sentStarted exampleEvent,
         Effect.sentFinished (.syntheticSuccessful
           { EventData := { Status := StatusSucceeded, Result := ResultPass },
             SyntheticExecution := { BatchId := "b1", ExecutionIds := ["e1"] } })] :=
  ⟨by decide, by decide,
   ⟨exampleRequest, { StatusCode := 200, Body := "response" }, by decide, rfl, rfl, rfl⟩,
   by decide⟩

/-- C9 as the code has it: for a 200 response whose body parses, the finished
event is errored/failed when notTriggeredCount is greater than zero and
succeeded/pass when it is zero or negative, whatever value the counter holds. -/
theorem classification_by_positive_count (w : World) (d : SyntheticEventData)
    (body : ExecutionResponseBody) (h : respondsWith w d body) :
    (0 < body.NotTriggeredCount →
      ∃ p : EventData,
        (SyntheticCloudEventHandler w d).sentEvents
          = [Effect.sentStarted d, Effect.sentFinished (.eventData p)] ∧
        p.Status = StatusErrored ∧ p.Result = ResultFailed) ∧
    (body.NotTriggeredCount ≤ 0 →
      ∃ p : SyntheticSuccessfulEventData,
        (SyntheticCloudEventHandler w d).sentEvents
          = [Effect.sentStarted d, Effect.sentFinished (.syntheticSuccessful p)] ∧
        p.EventData.Status = StatusSucceeded ∧ p.EventData.Result = ResultPass) := by
  obtain ⟨req, resp, hcall, hdo, h200, hj⟩ := h
  constructor
  · intro hpos
    refine ⟨erroredEventData "Failed to trigger Synthetic monitor!", ?_, rfl, rfl⟩
    rw [run_notTriggered w d req resp body hcall hdo h200 hj hpos]
    exact failWith_sentEvents w d _ _ (Or.inr ⟨req, rfl⟩)
  · intro hle
    refine ⟨syntheticSuccessfulEventData body, ?_, rfl, rfl⟩
    rw [run_triggered w d req resp body hcall hdo h200 hj hle]
    simp [Run.sentEvents]

/-- The classification at a response with one monitor not triggered. -/
theorem classification_by_positive_count_witness :
    (0 < partialResponseBody.NotTriggeredCount →
      ∃ p : EventData,
        (SyntheticCloudEventHandler (respondingWorld partialResponseBody) exampleEvent).sentEvents
          = [Effect.sentStarted exampleEvent, Effect.sentFinished (.eventData p)] ∧
        p.Status = StatusErrored ∧ p.Result = ResultFailed) ∧
    (partialResponseBody.NotTriggeredCount ≤ 0 →
      ∃ p : SyntheticSuccessfulEventData,
        (SyntheticCloudEventHandler (respondingWorld partialResponseBody) exampleEvent).sentEvents
          = [Effect.sentStarted exampleEvent, Effect.sentFinished (.syntheticSuccessful p)] ∧
        p.EventData.Status = StatusSucceeded ∧ p.EventData.Result = ResultPass) :=
  classification_by_positive_count (respondingWorld partialResponseBody) exampleEvent
    partialResponseBody
    ⟨exampleRequest, { StatusCode := 200, Body := "response" }, by decide, rfl, rfl, rfl⟩

/-! ## Failure paths -/

/-- C4, at a transport error: the HTTP call fails with a transport error, the
finished event is sent successfully, and the handler returns nil, not the
underlying error. -/
theorem transport_error_returns_nil :
    FailureCause.transport.occurs transportErrorWorld exampleEvent ∧
    transportErrorWorld.SendTaskFinishedEvent
      (.eventData (erroredEventData "Failed to trigger Synthetic monitor!")) = none ∧
    (SyntheticCloudEventHandler transportErrorWorld exampleEvent).outcome
      = Outcome.returned none :=
  ⟨⟨exampleRequest, "dial tcp: connection refused", by decide, rfl⟩, rfl, by decide⟩

/-- C4 as the code has it: on each failure path after the started event was
sent (DT_TENANT fails to parse, transport error, response body fails to parse,
notTriggeredCount greater than zero) the handler sends a finished event with
status errored and result failed and returns the error result of that send;
so it returns nil when the finished event is sent successfully, and the
underlying error is not returned. -/
theorem failure_returns_finished_send_result (w : World) (d : SyntheticEventData)
    (c : FailureCause) (h : c.occurs w d) :
    ∃ p : EventData,
      p.Status = StatusErrored ∧ p.Result = ResultFailed ∧
      (SyntheticCloudEventHandler w d).sentEvents
        = [Effect.sentStarted d, Effect.sentFinished (.eventData p)] ∧
      (SyntheticCloudEventHandler w d).outcome
        = Outcome.returned (w.SendTaskFinishedEvent (.eventData p)) ∧
      (w.SendTaskFinishedEvent (.eventData p) = none →
        (SyntheticCloudEventHandler w d).outcome = Outcome.returned none) := by
  obtain ⟨before, m, hrun, hb⟩ := run_failure w d c h
  refine ⟨erroredEventData m, rfl, rfl, ?_, ?_, ?_⟩
  · rw [hrun]; exact failWith_sentEvents w d before m hb
  · rw [hrun]; rfl
  · intro hsend
    rw [hrun, failWith_outcome, hsend]

/-- The return value at an environment whose DT_TENANT fails to parse. -/
theorem failure_returns_finished_send_result_witness :
    ∃ p : EventData,
      p.Status = StatusErrored ∧ p.Result = ResultFailed ∧
      (SyntheticCloudEventHandler badTenantWorld exampleEvent).sentEvents
        = [Effect.sentStarted exampleEvent, Effect.sentFinished (.eventData p)] ∧
      (SyntheticCloudEventHandler badTenantWorld exampleEvent).outcome
        = Outcome.returned (badTenantWorld.SendTaskFinishedEvent (.eventData p)) ∧
      (badTenantWorld.SendTaskFinishedEvent (.eventData p) = none →
        (SyntheticCloudEventHandler badTenantWorld exampleEvent).outcome
          = Outcome.returned none) :=
  failure_returns_finished_send_result badTenantWorld exampleEvent FailureCause.tenantParse
    ⟨rfl, "parse \":\": missing protocol scheme", rfl⟩

/-- C5: when the API answers 200 and the body parses to a response whose
notTriggeredCount is greater than zero, whatever the rest of the response, the
sender is handed the started event and then a finished event whose payload is a
plain `EventData` with status errored, result failed and a non-empty message;
its encoding has the keys status, result and message only, so no batch ID and
no execution IDs. The finished payload of every failure cause, in any
environment, is this payload up to the message. -/
theorem not_triggered_payload (w : World) (d : SyntheticEventData)
    (body : ExecutionResponseBody)
    (h : respondsWith w d body) (hpos : 0 < body.NotTriggeredCount) :
    ∃ p : EventData,
      (SyntheticCloudEventHandler w d).sentEvents
        = [Effect.sentStarted d, Effect.sentFinished (.eventData p)] ∧
      p.Status = StatusErrored ∧ p.Result = ResultFailed ∧ p.Message ≠ "" ∧
      (marshal (FinishedPayload.eventData p).toGo).keys = ["status", "result", "message"] ∧
      ∀ (w2 : World) (d2 : SyntheticEventData) (c : FailureCause), c.occurs w2 d2 →
        ∃ m, (SyntheticCloudEventHandler w2 d2).sentEvents
          = [Effect.sentStarted d2,
             Effect.sentFinished (.eventData { p with Message := m })] := by
  obtain ⟨req, resp, hcall, hdo, h200, hj⟩ := h
  refine ⟨erroredEventData "Failed to trigger Synthetic monitor!", ?_, rfl, rfl,
    by decide, by decide, ?_⟩
  · rw [run_notTriggered w d req resp body hcall hdo h200 hj hpos]
    exact failWith_sentEvents w d _ _ (Or.inr ⟨req, rfl⟩)
  · intro w2 d2 c hc
    obtain ⟨before, m, hrun, hb⟩ := run_failure w2 d2 c hc
    refine ⟨m, ?_⟩
    rw [hrun]
    exact failWith_sentEvents w2 d2 before m hb

/-- The errored payload at a response with one monitor not triggered. -/
theorem not_triggered_payload_witness :
    ∃ p : EventData,
      (SyntheticCloudEventHandler (respondingWorld partialResponseBody) exampleEvent).sentEvents
        = [Effect.sentStarted exampleEvent, Effect.sentFinished (.eventData p)] ∧
      p.Status = StatusErrored ∧ p.Result = ResultFailed ∧ p.Message ≠ "" ∧
      (marshal (FinishedPayload.eventData p).toGo).keys = ["status", "result", "message"] ∧
      ∀ (w2 : World) (d2 : SyntheticEventData) (c : FailureCause), c.occurs w2 d2 →
        ∃ m, (SyntheticCloudEventHandler w2 d2).sentEvents
          = [Effect.sentStarted d2,
             Effect.sentFinished (.eventData { p with Message := m })] :=
  not_triggered_payload (respondingWorld partialResponseBody) exampleEvent partialResponseBody
    ⟨exampleRequest, { StatusCode := 200, Body := "response" }, by decide, rfl, rfl, rfl⟩
    (by decide)

/-! ## The return value -/

theorem handleResponse_finished (w : World) (d : SyntheticEventData) (req : Request)
    (resp : Response) (p : FinishedPayload)
    (h : Effect.sentFinished p ∈
      (handleResponse w [Effect.sentStarted d, Effect.httpDo req] resp).trace) :
    (handleResponse w [Effect.sentStarted d, Effect.httpDo req] resp).outcome
      = Outcome.returned (w.SendTaskFinishedEvent p) := by
  unfold handleResponse at h ⊢
  cases hj : w.jsonUnmarshal resp.Body with
  | error e =>
    simp only [hj, failWith_trace] at h ⊢
    simp at h
    subst h
    rfl
  | ok body =>
    simp only [hj] at h ⊢
    by_cases hc : body.NotTriggeredCount > 0
    · simp only [hc, if_true, failWith_trace] at h ⊢
      simp at h
      subst h
      rfl
    · simp only [hc, if_false] at h ⊢
      simp at h
      subst h
      rfl

theorem handleDoResult_finished (w : World) (d : SyntheticEventData) (req : Request)
    (r : DoResult) (p : FinishedPayload)
    (h : Effect.sentFinished p ∈
      (handleDoResult w [Effect.sentStarted d, Effect.httpDo req] r).trace) :
    (handleDoResult w [Effect.sentStarted d, Effect.httpDo req] r).outcome
      = Outcome.returned (w.SendTaskFinishedEvent p) := by
  obtain ⟨resp, err⟩ := r
  cases err with
  | some e =>
    simp [handleDoResult, failWith] at h ⊢
    subst h
    rfl
  | none =>
    cases resp with
    | none => simp [handleDoResult] at h
    | some resp =>
      by_cases h200 : resp.StatusCode = 200
      · have hrun : handleDoResult w [Effect.sentStarted d, Effect.httpDo req]
            { resp := some resp, err := none }
            = handleResponse w [Effect.sentStarted d, Effect.httpDo req] resp := by
          simp [handleDoResult, h200]
        rw [hrun] at h ⊢
        exact handleResponse_finished w d req resp p h
      · simp [handleDoResult, h200] at h

/-- On every path that sends a finished event, the return value is the error
result of that send. -/
theorem finished_send_result_returned (w : World) (d : SyntheticEventData)
    (p : FinishedPayload)
    (h : Effect.sentFinished p ∈ (SyntheticCloudEventHandler w d).trace) :
    (SyntheticCloudEventHandler w d).outcome
      = Outcome.returned (w.SendTaskFinishedEvent p) := by
  unfold SyntheticCloudEventHandler at h ⊢
  cases hs : w.SendTaskStartedEvent d with
  | some e => simp [hs] at h
  | none =>
    simp only [hs] at h ⊢
    cases hu : w.urlParse (w.Getenv "DT_TENANT") with
    | error e =>
      simp [hu, failWith] at h ⊢
      subst h
      rfl
    | ok u =>
      simp only [hu] at h ⊢
      cases hn : w.newRequestError "POST"
          (w.urlString { u with Path := w.pathJoin u.Path "/api/v2/synthetic/monitors/execute" }) with
      | some e =>
        simp [hn, failWith] at h ⊢
        subst h
        rfl
      | none =>
        simp only [hn, headers_built, Option.isSome_none, Bool.false_eq_true, if_false,
          List.singleton_append] at h ⊢
        exact handleDoResult_finished w d _ _ p h

/-- C10: on every path that sends a finished event the handler returns exactly
the error result of that send; and when the HTTP call ends in a transport
error or in a 200 response, with any body, the started and one finished event
are sent, so that the handler returns nil whenever the event sender accepts
the finished event. -/
theorem handler_returns_finished_send_result (w : World) (d : SyntheticEventData) :
    (∀ p, Effect.sentFinished p ∈ (SyntheticCloudEventHandler w d).trace →
      (SyntheticCloudEventHandler w d).outcome
        = Outcome.returned (w.SendTaskFinishedEvent p)) ∧
    (∀ req, Effect.httpDo req ∈ (SyntheticCloudEventHandler w d).trace →
      ((∃ e, (w.httpClientDo req).err = some e) ∨
        (∃ resp, w.httpClientDo req = { resp := some resp, err := none } ∧
          resp.StatusCode = 200)) →
      (∃ p, (SyntheticCloudEventHandler w d).sentEvents
          = [Effect.sentStarted d, Effect.sentFinished p]) ∧
      ((∀ p, w.SendTaskFinishedEvent p = none) →
        (SyntheticCloudEventHandler w d).outcome = Outcome.returned none)) := by
  refine ⟨fun p h => finished_send_result_returned w d p h, ?_⟩
  intro req hcall hres
  have hsent : ∃ p, (SyntheticCloudEventHandler w d).sentEvents
      = [Effect.sentStarted d, Effect.sentFinished p] := by
    rcases hres with ⟨e, herr⟩ | ⟨resp, hdo, h200⟩
    · rw [run_transport w d req e hcall herr]
      exact ⟨_, failWith_sentEvents w d _ _ (Or.inr ⟨req, rfl⟩)⟩
    · rw [run_response w d req resp hcall hdo h200]
      obtain ⟨p, hp⟩ := handleResponse_trace w [Effect.sentStarted d, Effect.httpDo req] resp
      exact ⟨p, by simp [Run.sentEvents, hp]⟩
  refine ⟨hsent, fun hacc => ?_⟩
  obtain ⟨p, hp⟩ := hsent
  have hmem : Effect.sentFinished p ∈ (SyntheticCloudEventHandler w d).trace := by
    have : Effect.sentFinished p ∈ (SyntheticCloudEventHandler w d).sentEvents := by
      rw [hp]; simp
    exact (List.mem_filter.mp this).1
  rw [finished_send_result_returned w d p hmem, hacc p]

/-- The unit test's environment: the HTTP call ends in a transport error, two
events are sent and the handler returns nil. -/
theorem handler_returns_finished_send_result_witness :
    (SyntheticCloudEventHandler testWorld exampleEvent).outcome = Outcome.returned none ∧
    (SyntheticCloudEventHandler testWorld exampleEvent).sentEvents.length = 2 ∧
    ((∀ p, Effect.sentFinished p ∈ (SyntheticCloudEventHandler testWorld exampleEvent).trace →
      (SyntheticCloudEventHandler testWorld exampleEvent).outcome
        = Outcome.returned (testWorld.SendTaskFinishedEvent p)) ∧
    (∀ req, Effect.httpDo req ∈ (SyntheticCloudEventHandler testWorld exampleEvent).trace →
      ((∃ e, (testWorld.httpClientDo req).err = some e) ∨
        (∃ resp, testWorld.httpClientDo req = { resp := some resp, err := none } ∧
          resp.StatusCode = 200)) →
      (∃ p, (SyntheticCloudEventHandler testWorld exampleEvent).sentEvents
          = [Effect.sentStarted exampleEvent, Effect.sentFinished p]) ∧
      ((∀ p, testWorld.SendTaskFinishedEvent p = none) →
        (SyntheticCloudEventHandler testWorld exampleEvent).outcome
          = Outcome.returned none))) :=
  ⟨by decide, by decide, handler_returns_finished_send_result testWorld exampleEvent⟩

/-! ## The request -/

/-- Every request the handler hands to `httpClient.Do` is a POST whose body is
`jsonData` of the monitor ID and whose headers are the API token and the JSON
content type. -/
theorem request_built (w : World) (d : SyntheticEventData) (req : Request)
    (h : Effect.httpDo req ∈ (SyntheticCloudEventHandler w d).trace) :
    req.Method = "POST" ∧ req.Body = jsonData d.MonitorId ∧
    req.Header.Get "Authorization" = "Api-Token " ++ w.Getenv "DT_API_TOKEN" ∧
    req.Header.Get "Content-Type" = "application/json" := by
  obtain ⟨_, hm, hb, hh, _⟩ := trace_httpDo w d req h
  refine ⟨hm, hb, ?_, ?_⟩
  · rw [hh]; simp [Header.Get]
  · rw [hh]; simp [Header.Get]

theorem scanString_safe (cs rest : List Char) (h : ∀ c ∈ cs, safeChar c) :
    scanString (cs ++ Char.ofNat 34 :: rest) = some (cs.map StrUnit.lit, rest) := by
  induction cs with
  | nil =>
    rw [List.nil_append, scanString.eq_def]
    simp
  | cons c cs ih =>
    have hc := h c (by simp)
    have hcs : ∀ x ∈ cs, safeChar x := fun x hx => h x (by simp [hx])
    obtain ⟨h1, h2, h3⟩ := hc
    have h4 : ¬ c.toNat < 32 := by omega
    rw [List.cons_append, scanString.eq_def]
    simp [h1, h2, h4, ih hcs]

theorem decodeUnits_lit (cs : List Char) : decodeUnits (cs.map StrUnit.lit) = cs := by
  induction cs with
  | nil => simp [decodeUnits]
  | cons c cs ih => simp [decodeUnits, ih]

theorem parseString_safe (key : String) (rest : List Char) (h : ∀ c ∈ key.data, safeChar c) :
    parseString (key.data ++ Char.ofNat 34 :: rest) = some (key, rest) := by
  simp [parseString, scanString_safe key.data rest h, decodeUnits_lit]

/-- For a monitor ID without a quote, a backslash or a control character, the
request body is a well-formed JSON document and decodes to the one monitor with
that ID and no locations. -/
theorem parseJson_jsonData_safe (monitorId : String)
    (h : ∀ c ∈ monitorId.data, safeChar c) :
    parseJson (jsonData monitorId) = some (expectedRequestDocument monitorId) := by
  unfold parseJson
  obtain ⟨k, hk⟩ : ∃ k, 2 * (jsonData monitorId).data.length + 2 = k + 12 := by
    refine ⟨2 * (jsonData monitorId).data.length + 2 - 12, ?_⟩
    simp [jsonData]
    omega
  rw [hk]
  have hK1 := fun rest => parseString_safe "monitorsToTrigger" rest (by decide)
  have hK2 := fun rest => parseString_safe "monitorId" rest (by decide)
  have hK3 := fun rest => parseString_safe "locations" rest (by decide)
  have hID := fun rest => parseString_safe monitorId rest h
  simp only [List.cons_append, List.nil_append] at hK1 hK2 hK3
  simp only [jsonData, String.data_append, List.append_assoc]
  simp only [List.cons_append, List.nil_append]
  simp [parseValue, parseMembers, parseElements, skipWs, isWs, hK1, hK2, hK3, hID,
    expectedRequestDocument]

/-- C7, evaluated on the code: for the monitor ID `a"b` the handler posts the
body of `jsonData` with the quote unescaped, and that body is not a well-formed
JSON document; for the monitor ID made of `a` and the six characters of the
escape for U+0041 the body is well-formed but decodes to the monitor ID `aA`,
not to the given one. -/
theorem request_body_not_escaped :
    (SyntheticCloudEventHandler transportErrorWorld quoteEvent).httpCalls.map
        (fun req => req.Body) = [jsonData "a\"b"] ∧
    parseJson (jsonData "a\"b") = none ∧
    parseJson (jsonData "a\\u0041") = some (expectedRequestDocument "aA") :=
  ⟨by decide, rfl, rfl⟩

/-! ## The encoded success payload -/

/-- C8, at batch `b1` and executions `[e1]`: the payload the handler sends holds
that batch ID and those execution IDs, and its encoding has the top-level keys
status, result and SyntheticExecution; batchId and executionIds are not among
them. -/
theorem success_payload_batchId_not_top_level :
    (syntheticSuccessfulEventData exampleResponseBody).SyntheticExecution
      = { BatchId := "b1", ExecutionIds := ["e1"] } ∧
    (marshal (syntheticSuccessfulEventData exampleResponseBody).toGo).keys
      = ["status", "result", "SyntheticExecution"] ∧
    "batchId" ∉ (marshal (syntheticSuccessfulEventData exampleResponseBody).toGo).keys ∧
    "executionIds" ∉ (marshal (syntheticSuccessfulEventData exampleResponseBody).toGo).keys := by
  decide

/-- C8 as the code has it: the encoding of the success payload the handler sends
is an object with exactly the members status "succeeded", result "pass" and
SyntheticExecution, the last holding an object with the members batchId and
executionIds (the batch ID of the response and its execution IDs in order). -/
theorem success_payload_encoding (body : ExecutionResponseBody) :
    marshal (syntheticSuccessfulEventData body).toGo
      = Json.obj [("status", Json.str "succeeded"), ("result", Json.str "pass"),
          ("SyntheticExecution",
            Json.obj [("batchId", Json.str body.BatchId),
              ("executionIds", Json.arr ((triggeredExecutionIds body).map Json.str))])] := by
  rw [← collectExecutionIds_eq]
  rfl

theorem mem_marshalFields_string (d : FieldDecl) (v : String) (rest : GoFields)
    (kv : String × Json) (h : kv ∈ marshalFields (.cons d (.string v) rest)) :
    kv.1 = d.tag.getD d.name ∨ kv ∈ marshalFields rest := by
  simp only [marshalFields] at h
  split_ifs at h
  · exact Or.inr h
  · rcases List.mem_cons.mp h with h | h
    · left; rw [h]
    · exact Or.inr h

theorem mem_marshalFields_stringMap (d : FieldDecl) (v : List (String × String))
    (rest : GoFields) (kv : String × Json)
    (h : kv ∈ marshalFields (.cons d (.stringMap v) rest)) :
    kv.1 = d.tag.getD d.name ∨ kv ∈ marshalFields rest := by
  simp only [marshalFields] at h
  split_ifs at h
  · exact Or.inr h
  · rcases List.mem_cons.mp h with h | h
    · left; rw [h]
    · exact Or.inr h

/-- The members of an encoded `EventData` carry its seven tag names only. -/
theorem eventData_member_keys (d : EventData) (kv : String × Json)
    (h : kv ∈ marshalFields (GoFields.ofList [
      ({ name := "Project", tag := some "project", omitempty := true }, .string d.Project),
      ({ name := "Stage", tag := some "stage", omitempty := true }, .string d.Stage),
      ({ name := "Service", tag := some "service", omitempty := true }, .string d.Service),
      ({ name := "Labels", tag := some "labels", omitempty := true }, .stringMap d.Labels),
      ({ name := "Status", tag := some "status", omitempty := true }, .string d.Status),
      ({ name := "Result", tag := some "result", omitempty := true }, .string d.Result),
      ({ name := "Message", tag := some "message", omitempty := true }, .string d.Message)])) :
    kv.1 ∈ ["project", "stage", "service", "labels", "status", "result", "message"] := by
  simp only [GoFields.ofList] at h
  rcases mem_marshalFields_string _ _ _ _ h with h | h
  · simp [h]
  rcases mem_marshalFields_string _ _ _ _ h with h | h
  · simp [h]
  rcases mem_marshalFields_string _ _ _ _ h with h | h
  · simp [h]
  rcases mem_marshalFields_stringMap _ _ _ _ h with h | h
  · simp [h]
  rcases mem_marshalFields_string _ _ _ _ h with h | h
  · simp [h]
  rcases mem_marshalFields_string _ _ _ _ h with h | h
  · simp [h]
  rcases mem_marshalFields_string _ _ _ _ h with h | h
  · simp [h]
  simp [marshalFields] at h

/-- Whatever task metadata the payload carries, its encoding has the member
SyntheticExecution holding the object with batchId and executionIds, and every
other top-level key is one of the seven tag names of `EventData`; so batchId
and executionIds are not top-level keys. -/
theorem success_payload_nested (d : SyntheticSuccessfulEventData) :
    (∀ k ∈ (marshal d.toGo).keys,
      k ∈ ["project", "stage", "service", "labels", "status", "result", "message",
           "SyntheticExecution"]) ∧
    "batchId" ∉ (marshal d.toGo).keys ∧ "executionIds" ∉ (marshal d.toGo).keys ∧
    "SyntheticExecution" ∈ (marshal d.toGo).keys ∧
    marshal d.SyntheticExecution.toGo
      = Json.obj [("batchId", Json.str d.SyntheticExecution.BatchId),
          ("executionIds", Json.arr (d.SyntheticExecution.ExecutionIds.map Json.str))] := by
  have hkeys : ∀ k ∈ (marshal d.toGo).keys,
      k ∈ ["project", "stage", "service", "labels", "status", "result", "message",
           "SyntheticExecution"] := by
    intro k hk
    simp only [marshal, SyntheticSuccessfulEventData.toGo, EventData.toGo,
      SyntheticExecution.toGo, GoFields.ofList, Json.keys] at hk
    rw [marshalFields] at hk
    simp only [Bool.and_self, Option.isNone_none, if_true, List.map_append, List.mem_append,
      List.mem_map] at hk
    rcases hk with ⟨kv, hkv, rfl⟩ | ⟨kv, hkv, rfl⟩
    · have := eventData_member_keys d.EventData kv (by simpa [GoFields.ofList] using hkv)
      simp only [List.mem_cons] at this ⊢
      tauto
    · simp [marshalFields] at hkv
      simp [hkv]
  refine ⟨hkeys, fun h => ?_, fun h => ?_, ?_, rfl⟩
  · have := hkeys _ h
    revert this
    decide
  · have := hkeys _ h
    revert this
    decide
  · simp only [marshal, SyntheticSuccessfulEventData.toGo, EventData.toGo,
      SyntheticExecution.toGo, GoFields.ofList, Json.keys]
    rw [marshalFields]
    simp [marshalFields]

end DtSynthetic
